import Mathlib

/-!
# IdeaSpark — verification of the 3D mind-map engine

Shallow embedding of `src/components/MindMap3D.tsx` (with the surrounding
`src/App.tsx` where it drives the recenter reset): the Fibonacci-sphere
layout generator, the projection pipeline, the pointer/wheel interaction
state machine, the animation tick, and the depth sorter.

Numbers are modelled over `ℝ` (JavaScript doubles, exact-real reading).
Where the NaN behaviour of IEEE division is itself the question (the
`i / (count - 1)` expression of the layout loop at `N = 1`), a separate
arithmetic `JSNum` over `ℚ` models JavaScript's special values.
-/

namespace IdeaSpark

noncomputable section

/-- `Idea` from `src/types.ts`. -/
structure Idea where
  id : String
  phrase : String
  category : String
  description : String
deriving DecidableEq, Repr

/-- `Point3D` from `src/components/MindMap3D.tsx` (lines 10-17).
`idea` is the optional item reference, `isCenter` the optional flag
(absent = `false`). -/
structure Point3D where
  x : ℝ
  y : ℝ
  z : ℝ
  idea : Option Idea
  id : String
  isCenter : Bool

/-- `BASE_RADIUS = 420` (line 30). -/
def BASE_RADIUS : ℝ := 420

/-- `FOCAL_LENGTH = 900` (line 31). -/
def FOCAL_LENGTH : ℝ := 900

/-- `const phi = Math.PI * (3 - Math.sqrt(5))` — the golden angle (line 41). -/
def goldenAngle : ℝ := Real.pi * (3 - Real.sqrt 5)

/-- The central node pushed first: `{ x: 0, y: 0, z: 0, id: 'center', isCenter: true }`
(line 38). -/
def centerPoint : Point3D :=
  { x := 0, y := 0, z := 0, idea := none, id := "center", isCenter := true }

/-- One iteration of the layout loop (lines 43-58), for item `idea` at index `i`
with `count = ideas.length`:
`y = 1 - (i / (count - 1)) * 2`, `radius = sqrt(1 - y*y)`, `theta = phi * i`,
`x = cos(theta) * radius`, `z = sin(theta) * radius`, each scaled by
`BASE_RADIUS` when pushed. -/
def satellitePoint (count i : ℕ) (idea : Idea) : Point3D :=
  let y : ℝ := 1 - ((i : ℝ) / ((count : ℝ) - 1)) * 2
  let radius : ℝ := Real.sqrt (1 - y * y)
  let theta : ℝ := goldenAngle * (i : ℝ)
  { x := Real.cos theta * radius * BASE_RADIUS
    y := y * BASE_RADIUS
    z := Real.sin theta * radius * BASE_RADIUS
    idea := some idea
    id := idea.id
    isCenter := false }

/-- The `for (let i = 0; i < count; i++)` loop of the layout (lines 43-59):
one satellite per item, indices counting up from `i`. -/
def satellites (count : ℕ) : ℕ → List Idea → List Point3D
  | _, [] => []
  | i, idea :: rest => satellitePoint count i idea :: satellites count (i + 1) rest

/-- The `points` memo of `MindMap3D` (lines 34-61): the center node followed by
one satellite per idea, in input order. -/
def mkPoints (ideas : List Idea) : List Point3D :=
  centerPoint :: satellites ideas.length 0 ideas

/-- A sample item used to instantiate universally quantified theorems. -/
def ideaA : Idea :=
  { id := "idea-a", phrase := "gravity", category := "physics", description := "apple falls" }

/-- A second sample item. -/
def ideaB : Idea :=
  { id := "idea-b", phrase := "original sin", category := "myth", description := "eden" }

/-! ## Projector -/

/-- The record returned by `project` (line 166):
`{ x: x2d, y: y2d, scale, zIndex: Math.floor(scale * 1000), rawZ: z }`. -/
structure Projection where
  x : ℝ
  y : ℝ
  scale : ℝ
  zIndex : ℤ
  rawZ : ℝ

/-- `project` (lines 147-167), as a function of the view state
`(rotationX, rotationY, zoomScale)` it reads from the component. -/
def project (rotationX rotationY zoomScale : ℝ) (p : Point3D) (width height : ℝ) :
    Projection :=
  let scaledX := p.x * zoomScale
  let scaledY := p.y * zoomScale
  let scaledZ := p.z * zoomScale
  let x := scaledX * Real.cos rotationY - scaledZ * Real.sin rotationY
  let z := scaledZ * Real.cos rotationY + scaledX * Real.sin rotationY
  let y := scaledY * Real.cos rotationX - z * Real.sin rotationX
  let z2 := z * Real.cos rotationX + scaledY * Real.sin rotationX
  let scale := FOCAL_LENGTH / (FOCAL_LENGTH + z2)
  let x2d := x * scale + width / 2
  let y2d := y * scale + height / 2
  { x := x2d, y := y2d, scale := scale,
    zIndex := Int.floor (scale * 1000), rawZ := z2 }

/-- Modelled from the spec's words for the projection pipeline (claim C6 /
spec §4.3), to be compared with `project`: scale all three coordinates by
`zoom`; rotate about Y by `θy`; rotate about X by `θx` with
`(y', z'') = (y·cosθx − z'·sinθx, z'·cosθx + y·sinθx)`; then
`perspectiveScale = FOCAL_LENGTH / (FOCAL_LENGTH + z'')`,
`screenX = x'·perspectiveScale + width/2`,
`screenY = y'·perspectiveScale + height/2`, returning also
`rawRotatedZ = z''`. -/
structure ScreenSpec where
  screenX : ℝ
  screenY : ℝ
  perspectiveScale : ℝ
  rawRotatedZ : ℝ

/-- The spec-side projection pipeline (see `ScreenSpec`). -/
def projectSpec (θx θy zoom : ℝ) (p : Point3D) (width height : ℝ) : ScreenSpec :=
  let sx := p.x * zoom
  let sy := p.y * zoom
  let sz := p.z * zoom
  let xr := sx * Real.cos θy - sz * Real.sin θy
  let zr := sz * Real.cos θy + sx * Real.sin θy
  let yr := sy * Real.cos θx - zr * Real.sin θx
  let zrr := zr * Real.cos θx + sy * Real.sin θx
  let ps := FOCAL_LENGTH / (FOCAL_LENGTH + zrr)
  { screenX := xr * ps + width / 2
    screenY := yr * ps + height / 2
    perspectiveScale := ps
    rawRotatedZ := zrr }

/-! ## Depth sorter / render list -/

/-- The element type of `projectedPoints` (lines 174-177): the JS spread
`{ ...p, ...project(p, width, height) }` keeps the point's `z`, `idea`, `id`
and `isCenter`, while `x` and `y` are overwritten by the projected screen
coordinates. -/
structure ProjectedPoint where
  x : ℝ
  y : ℝ
  z : ℝ
  idea : Option Idea
  id : String
  isCenter : Bool
  scale : ℝ
  zIndex : ℤ
  rawZ : ℝ

/-- The spread `{ ...p, ...project(p, width, height) }`. -/
def mkProjected (p : Point3D) (pr : Projection) : ProjectedPoint :=
  { x := pr.x, y := pr.y, z := p.z, idea := p.idea, id := p.id,
    isCenter := p.isCenter, scale := pr.scale, zIndex := pr.zIndex, rawZ := pr.rawZ }

/-- `points.map(p => ({...p, ...project(p, width, height)}))` (lines 174-177). -/
def projectedPoints (rotX rotY zoom w h : ℝ) (pts : List Point3D) :
    List ProjectedPoint :=
  pts.map fun p => mkProjected p (project rotX rotY zoom p w h)

/-- The comparator `(a, b) => a.zIndex - b.zIndex` of line 180: ascending
order on `zIndex`. -/
def zIndexLeB (a b : ProjectedPoint) : Bool := decide (a.zIndex ≤ b.zIndex)

/-- `projectedPoints.sort((a, b) => a.zIndex - b.zIndex)` (line 180): the
render list, sorted ascending by `zIndex` (a stable sort, as JS `sort` is). -/
def renderList (rotX rotY zoom w h : ℝ) (pts : List Point3D) :
    List ProjectedPoint :=
  List.mergeSort (projectedPoints rotX rotY zoom w h pts) zIndexLeB

/-! ## Interaction controller -/

/-- The mutable state of `MindMap3D` (lines 21-27): `rotation`, `zoomScale`,
`isDragging`, `lastMouseRef`, `autoRotate`, `selectedIdea`. -/
structure MindMapState where
  rotationX : ℝ
  rotationY : ℝ
  zoomScale : ℝ
  isDragging : Bool
  lastMouseX : ℝ
  lastMouseY : ℝ
  autoRotate : Bool
  selectedIdea : Option Idea

/-- The `useState`/`useRef` initial values (lines 21-27): rotation
`{x: 0.2, y: 0}`, zoom `1`, not dragging, last mouse `{x: 0, y: 0}`,
auto-rotating, no selection. A freshly mounted `MindMap3D` starts here. -/
def initState : MindMapState :=
  { rotationX := 0.2, rotationY := 0, zoomScale := 1, isDragging := false,
    lastMouseX := 0, lastMouseY := 0, autoRotate := true, selectedIdea := none }

/-- `handleMouseDown` (lines 80-87): ignored while a detail view is open
(`if (selectedIdea) return`); otherwise start a drag, suspend auto-rotation
and record the pointer position. -/
def handleMouseDown (s : MindMapState) (clientX clientY : ℝ) : MindMapState :=
  if s.selectedIdea.isSome then s
  else
    { s with isDragging := true, autoRotate := false,
             lastMouseX := clientX, lastMouseY := clientY }

/-- `handleMouseMove` (lines 89-104): ignored unless dragging; otherwise
`rotation.x -= deltaY * 0.005`, `rotation.y += deltaX * 0.005` and the
recorded pointer position is updated. -/
def handleMouseMove (s : MindMapState) (clientX clientY : ℝ) : MindMapState :=
  if s.isDragging = false then s
  else
    { s with
        rotationX := s.rotationX - (clientY - s.lastMouseY) * 0.005,
        rotationY := s.rotationY + (clientX - s.lastMouseX) * 0.005,
        lastMouseX := clientX, lastMouseY := clientY }

/-- `handleMouseUp` (lines 106-111), also wired to `onMouseLeave`,
`onTouchEnd`: stop dragging; resume auto-rotation only when no selection is
held. -/
def handleMouseUp (s : MindMapState) : MindMapState :=
  let s1 := { s with isDragging := false }
  if s1.selectedIdea.isNone then { s1 with autoRotate := true } else s1

/-- `handleWheel` (lines 113-120):
`zoomScale := Math.min(Math.max(zoomScale - deltaY * 0.001, 0.5), 2.5)`. -/
def handleWheel (s : MindMapState) (deltaY : ℝ) : MindMapState :=
  { s with zoomScale := min (max (s.zoomScale - deltaY * 0.001) 0.5) 2.5 }

/-- `handleNodeClick` (lines 122-137): the center node clears any selection
and resumes rotation; a satellite node (one carrying an idea) becomes the
selection and suspends rotation. -/
def handleNodeClick (s : MindMapState) (p : Point3D) : MindMapState :=
  if p.isCenter then { s with selectedIdea := none, autoRotate := true }
  else
    match p.idea with
    | some idea => { s with selectedIdea := some idea, autoRotate := false }
    | none => s

/-- `handleBackgroundClick` (lines 139-144): only acts while a selection is
held; clears it and resumes rotation. -/
def handleBackgroundClick (s : MindMapState) : MindMapState :=
  if s.selectedIdea.isSome then { s with selectedIdea := none, autoRotate := true }
  else s

/-- The close button of the detail overlay (line 339):
`setSelectedIdea(null); setAutoRotate(true)`. The overlay — hence the
button — is rendered only while `selectedIdea` is non-null (line 335), so
with no selection the event cannot occur and the state is unchanged. -/
def closeDetailClick (s : MindMapState) : MindMapState :=
  match s.selectedIdea with
  | some _ => { s with selectedIdea := none, autoRotate := true }
  | none => s

/-- The "set as core" button (lines 356-362):
`onSetAsCore(selectedIdea.phrase); setSelectedIdea(null)`. Returns the
updated state together with the list of `onSetAsCore` invocations the
handler performs. The button exists only while `selectedIdea` is non-null
(line 335). Note: the handler does NOT touch `autoRotate`. -/
def setAsCoreClick (s : MindMapState) : MindMapState × List String :=
  match s.selectedIdea with
  | some idea => ({ s with selectedIdea := none }, [idea.phrase])
  | none => (s, [])

/-- `animate` (lines 64-72): one animation-frame tick. If
`autoRotate && !isDragging && !selectedIdea`, increment `rotation.y` by
`0.003`; otherwise do nothing. -/
def animateTick (s : MindMapState) : MindMapState :=
  if s.autoRotate && !s.isDragging && s.selectedIdea.isNone then
    { s with rotationY := s.rotationY + 0.003 }
  else s

/-- The events the component reacts to. `mouseUp` also stands for
`mouseLeave`/`touchEnd` (the container wires all three to `handleMouseUp`,
lines 223-227). `nodeClick` carries the clicked point. -/
inductive Event where
  | mouseDown (clientX clientY : ℝ)
  | mouseMove (clientX clientY : ℝ)
  | mouseUp
  | wheel (deltaY : ℝ)
  | nodeClick (p : Point3D)
  | backgroundClick
  | closeDetail
  | setAsCore
  | tick

/-- One event step of the component alone. The second component is the list
of `onSetAsCore(phrase)` calls the handler makes (empty for all events but
"set as core"). -/
def componentStep (e : Event) (s : MindMapState) : MindMapState × List String :=
  match e with
  | .mouseDown cx cy => (handleMouseDown s cx cy, [])
  | .mouseMove cx cy => (handleMouseMove s cx cy, [])
  | .mouseUp => (handleMouseUp s, [])
  | .wheel d => (handleWheel s d, [])
  | .nodeClick p => (handleNodeClick s p, [])
  | .backgroundClick => (handleBackgroundClick s, [])
  | .closeDetail => (closeDetailClick s, [])
  | .setAsCore => setAsCoreClick s
  | .tick => (animateTick s, [])

/-- The falsiness test `!term.trim()` guarding `performSearch`
(src/App.tsx line 17): `true` exactly when the trimmed string is empty,
i.e. every character of `term` is whitespace. (`Char.isWhitespace` covers
space, tab, CR and LF; the exotic Unicode whitespace JavaScript's `trim`
also strips plays no role in any statement here.) -/
def jsBlank (term : String) : Bool := term.toList.all Char.isWhitespace

/-- One event step of the composed system. When the component invokes
`onSetAsCore(term)`, `App.handleSetAsCore` runs `performSearch(term)`
(src/App.tsx lines 16-45). If `term` is blank, `performSearch` returns at
its `if (!term.trim()) return` guard (App.tsx line 17) and the component
stays mounted, un-reset. Otherwise `performSearch` synchronously clears the
idea list, which unmounts `MindMap3D` (the `ideas.length > 0 && ...` guard,
App.tsx line 113), and mounts a fresh instance — in `initState` — when the
regenerated list arrives. All other events leave the component mounted. -/
def sysStep (e : Event) (s : MindMapState) : MindMapState × List String :=
  let r := componentStep e s
  match r.2 with
  | [] => r
  | term :: _ => if jsBlank term then r else (initState, r.2)

/-- Click-phase events. In the DOM a `click` is dispatched only after the
`mousedown`/`mouseup` (or touch) pair on the same region; the container
handles `mouseup`, `mouseleave` and `touchend` with `handleMouseUp`
(lines 223-227), so by the time any `click` handler runs, `isDragging`
is `false`. -/
def isClickEvent : Event → Bool
  | .nodeClick _ | .backgroundClick | .closeDetail | .setAsCore => true
  | _ => false

/-- DOM-admissibility of dispatching event `e` in state `s` (see
`isClickEvent`). -/
def admissible (s : MindMapState) (e : Event) : Prop :=
  isClickEvent e = true → s.isDragging = false

/-- States of the composed system reachable from a fresh mount by
DOM-admissible event sequences. -/
inductive Reachable : MindMapState → Prop where
  | init : Reachable initState
  | step (s : MindMapState) (e : Event) :
      Reachable s → admissible s e → Reachable (sysStep e s).1

/-- The flags encode `AutoRotating`. -/
def isAutoRotatingState (s : MindMapState) : Prop := s.autoRotate = true

/-- The flags encode `Dragging`. -/
def isDraggingState (s : MindMapState) : Prop := s.isDragging = true

/-- The flags encode `Inspecting(selectedItemKey)`. -/
def isInspectingState (s : MindMapState) : Prop := s.selectedIdea.isSome = true

/-- Exactly one of the three interaction states is active. -/
def exactlyOneActive (s : MindMapState) : Prop :=
  (isAutoRotatingState s ∧ ¬ isDraggingState s ∧ ¬ isInspectingState s) ∨
    (¬ isAutoRotatingState s ∧ isDraggingState s ∧ ¬ isInspectingState s) ∨
    (¬ isAutoRotatingState s ∧ ¬ isDraggingState s ∧ isInspectingState s)

/-- None of the three interaction states is active. -/
def noneActive (s : MindMapState) : Prop :=
  ¬ isAutoRotatingState s ∧ ¬ isDraggingState s ∧ ¬ isInspectingState s

/-- The state "inspecting `ideaA`" reached by clicking its node. -/
def inspectingA : MindMapState :=
  { initState with autoRotate := false, selectedIdea := some ideaA }

/-- A sample item whose phrase is blank (the empty string). Nothing in the
code or in the spec's caller contract rules such an item out — items come
from parsed model JSON. -/
def ideaBlank : Idea :=
  { id := "idea-blank", phrase := "", category := "test", description := "blank phrase" }

/-- The rendered node of the one-item layout `[ideaBlank]`. -/
def blankNodePoint : Point3D := satellitePoint 1 0 ideaBlank

/-- The state "inspecting `ideaBlank`" reached by clicking its node. -/
def inspectingBlank : MindMapState :=
  { initState with autoRotate := false, selectedIdea := some ideaBlank }

/-- The state left behind by a "set as core" on a blank-phrase idea:
selection cleared, but auto-rotation still suspended — none of the three
interaction states active. -/
def stalledState : MindMapState :=
  { initState with autoRotate := false }

/-- Folding a sequence of wheel events over the state. -/
def wheelFold (s : MindMapState) (ds : List ℝ) : MindMapState :=
  ds.foldl handleWheel s

/-! ## JavaScript number semantics for the layout's division

The `ℝ`-valued embedding above uses Lean's total division (`0 / 0 = 0`),
which silently differs from JavaScript exactly where claim C3 lives: in
JavaScript `0 / 0` is `NaN`. `JSNum` models an IEEE-754 double as a finite
value, an infinity, or `NaN` — finite results are kept exact (rounding and
signed zero are irrelevant to the expression studied here) while the
special values follow IEEE-754 / JavaScript. -/

/-- A JavaScript number: finite (kept exact over `ℚ`), `±Infinity`, or
`NaN`. -/
inductive JSNum where
  | fin (q : ℚ)
  | posInf
  | negInf
  | nan
deriving DecidableEq, Repr

/-- JavaScript subtraction. -/
def JSNum.sub : JSNum → JSNum → JSNum
  | nan, _ => nan
  | _, nan => nan
  | fin a, fin b => fin (a - b)
  | fin _, posInf => negInf
  | fin _, negInf => posInf
  | posInf, fin _ => posInf
  | negInf, fin _ => negInf
  | posInf, negInf => posInf
  | negInf, posInf => negInf
  | posInf, posInf => nan
  | negInf, negInf => nan

/-- JavaScript multiplication. -/
def JSNum.mul : JSNum → JSNum → JSNum
  | nan, _ => nan
  | _, nan => nan
  | fin a, fin b => fin (a * b)
  | fin a, posInf => if a = 0 then nan else if 0 < a then posInf else negInf
  | posInf, fin a => if a = 0 then nan else if 0 < a then posInf else negInf
  | fin a, negInf => if a = 0 then nan else if 0 < a then negInf else posInf
  | negInf, fin a => if a = 0 then nan else if 0 < a then negInf else posInf
  | posInf, posInf => posInf
  | posInf, negInf => negInf
  | negInf, posInf => negInf
  | negInf, negInf => posInf

/-- JavaScript division. `0 / 0 = NaN`; a nonzero finite value divided by
(positive) zero gives a signed infinity. -/
def JSNum.div : JSNum → JSNum → JSNum
  | nan, _ => nan
  | _, nan => nan
  | fin a, fin b =>
      if b = 0 then (if a = 0 then nan else if 0 < a then posInf else negInf)
      else fin (a / b)
  | fin _, posInf => fin 0
  | fin _, negInf => fin 0
  | posInf, fin a => if 0 ≤ a then posInf else negInf
  | negInf, fin a => if 0 ≤ a then negInf else posInf
  | posInf, posInf => nan
  | posInf, negInf => nan
  | negInf, posInf => nan
  | negInf, negInf => nan

/-- The expression `1 - (i / (count - 1)) * 2` of the layout loop
(line 44), evaluated in JavaScript number semantics. -/
def jsYNorm (count i : ℕ) : JSNum :=
  JSNum.sub (JSNum.fin 1)
    (JSNum.mul
      (JSNum.div (JSNum.fin (i : ℚ)) (JSNum.sub (JSNum.fin (count : ℚ)) (JSNum.fin 1)))
      (JSNum.fin 2))

/-! ## Theorems -/

theorem satellites_length (count i : ℕ) (l : List Idea) :
    (satellites count i l).length = l.length := by
  induction l generalizing i with
  | nil => rfl
  | cons a t ih => simp [satellites, ih]

theorem satellites_get (count : ℕ) :
    ∀ (l : List Idea) (i j : ℕ) (h : j < l.length),
      (satellites count i l).get ⟨j, by rw [satellites_length]; exact h⟩ =
        satellitePoint count (i + j) (l.get ⟨j, h⟩) := by
  intro l
  induction l with
  | nil => intro i j h; simp at h
  | cons a t ih =>
    intro i j h
    cases j with
    | zero => simp [satellites]
    | succ j' =>
      simp only [satellites, List.get_cons_succ]
      have := ih (i + 1) j' (by simpa using Nat.lt_of_succ_lt_succ h)
      rw [this]
      congr 1
      omega

theorem satellites_isCenter_false (count i : ℕ) (l : List Idea) :
    ∀ p ∈ satellites count i l, p.isCenter = false := by
  induction l generalizing i with
  | nil => intro p hp; simp [satellites] at hp
  | cons a t ih =>
    intro p hp
    simp only [satellites, List.mem_cons] at hp
    rcases hp with rfl | hp
    · rfl
    · exact ih (i + 1) p hp

theorem satellitePoint_fields (c i : ℕ) (a : Idea) :
    (satellitePoint c i a).idea = some a ∧ (satellitePoint c i a).id = a.id ∧
      (satellitePoint c i a).isCenter = false :=
  ⟨rfl, rfl, rfl⟩

/-- C7: for every ordered list of `N ≥ 0` items, the layout yields exactly
`N + 1` points; the first is the unique `isCenter` point and sits at the
origin; the point at position `i + 1` is exactly the satellite built from
`ideas[i]`, hence references that item with matching `id`, in input order. -/
theorem layout_count_and_structure (ideas : List Idea) :
    (mkPoints ideas).length = ideas.length + 1 ∧
    (mkPoints ideas).head? = some centerPoint ∧
    (centerPoint.isCenter = true ∧ centerPoint.x = 0 ∧ centerPoint.y = 0 ∧
      centerPoint.z = 0) ∧
    (mkPoints ideas).countP (fun p => p.isCenter) = 1 ∧
    ∀ (i : ℕ) (h : i < ideas.length),
      (mkPoints ideas).get
          ⟨i + 1, by simp only [mkPoints, List.length_cons, satellites_length]; omega⟩ =
        satellitePoint ideas.length i (ideas.get ⟨i, h⟩) := by
  refine ⟨by simp [mkPoints, satellites_length], rfl, ⟨rfl, rfl, rfl, rfl⟩, ?_, ?_⟩
  · have hz : (satellites ideas.length 0 ideas).countP (fun p => p.isCenter) = 0 := by
      rw [List.countP_eq_zero]
      intro p hp
      simp [satellites_isCenter_false ideas.length 0 ideas p hp]
    simp [mkPoints, List.countP_cons, hz, centerPoint]
  · intro i h
    have := satellites_get ideas.length ideas 0 i h
    simpa [mkPoints] using this

/-- Witness for C7 at the concrete one-item list `[ideaA]`. -/
theorem layout_count_and_structure_witness :
    (mkPoints [ideaA]).length = 1 + 1 ∧
      (mkPoints [ideaA]).get ⟨1, by simp [mkPoints, satellites_length]⟩ =
        satellitePoint 1 0 ideaA := by
  obtain ⟨h1, -, -, -, h5⟩ := layout_count_and_structure [ideaA]
  exact ⟨h1, h5 0 (by norm_num)⟩

theorem mem_satellites {c i : ℕ} {l : List Idea} {p : Point3D}
    (hp : p ∈ satellites c i l) :
    ∃ j a, j < l.length ∧ p = satellitePoint c (i + j) a := by
  induction l generalizing i with
  | nil => simp [satellites] at hp
  | cons b t ih =>
    simp only [satellites, List.mem_cons] at hp
    rcases hp with rfl | hp
    · exact ⟨0, b, by simp, by simp⟩
    · obtain ⟨j, a, hj, rfl⟩ := ih hp
      exact ⟨j + 1, a, by simpa using Nat.succ_lt_succ hj, by ring_nf⟩

theorem satellitePoint_sq_norm {c k : ℕ} (hc : 2 ≤ c) (hk : k < c) (a : Idea) :
    (satellitePoint c k a).x ^ 2 + (satellitePoint c k a).y ^ 2 +
      (satellitePoint c k a).z ^ 2 = BASE_RADIUS ^ 2 := by
  simp only [satellitePoint]
  set q : ℝ := (k : ℝ) / ((c : ℝ) - 1) with hq
  have hc1 : (1 : ℝ) ≤ (c : ℝ) - 1 := by
    have : (2 : ℝ) ≤ (c : ℝ) := by exact_mod_cast hc
    linarith
  have hq0 : 0 ≤ q := by
    apply div_nonneg (Nat.cast_nonneg k)
    linarith
  have hq1 : q ≤ 1 := by
    rw [hq, div_le_one (by linarith)]
    have : (k : ℝ) ≤ (c : ℝ) - 1 := by
      have : (k : ℝ) + 1 ≤ (c : ℝ) := by exact_mod_cast hk
      linarith
    exact this
  have hy : (0 : ℝ) ≤ 1 - (1 - q * 2) * (1 - q * 2) := by nlinarith
  have hr : Real.sqrt (1 - (1 - q * 2) * (1 - q * 2)) ^ 2
      = 1 - (1 - q * 2) * (1 - q * 2) := Real.sq_sqrt hy
  have htrig := Real.sin_sq_add_cos_sq (goldenAngle * (k : ℝ))
  linear_combination
    (BASE_RADIUS ^ 2 * Real.sqrt (1 - (1 - q * 2) * (1 - q * 2)) ^ 2) * htrig +
      BASE_RADIUS ^ 2 * hr

/-- C8: for every list of `N ≥ 2` items, every non-center point of the layout
lies exactly on the sphere of radius `BASE_RADIUS` about the origin:
its squared coordinates sum to `BASE_RADIUS ^ 2`, so its distance from the
origin is `BASE_RADIUS` (exact under exact-real arithmetic). -/
theorem satellites_on_sphere (ideas : List Idea) (h2 : 2 ≤ ideas.length) :
    ∀ p ∈ mkPoints ideas, p.isCenter = false →
      p.x ^ 2 + p.y ^ 2 + p.z ^ 2 = BASE_RADIUS ^ 2 ∧
        Real.sqrt (p.x ^ 2 + p.y ^ 2 + p.z ^ 2) = BASE_RADIUS := by
  intro p hp hpc
  have hsq : p.x ^ 2 + p.y ^ 2 + p.z ^ 2 = BASE_RADIUS ^ 2 := by
    simp only [mkPoints, List.mem_cons] at hp
    rcases hp with rfl | hp
    · simp [centerPoint] at hpc
    · obtain ⟨j, a, hj, rfl⟩ := mem_satellites hp
      exact satellitePoint_sq_norm h2 (by simpa using hj) a
  refine ⟨hsq, ?_⟩
  rw [hsq]
  rw [show BASE_RADIUS ^ 2 = BASE_RADIUS * BASE_RADIUS by ring]
  exact Real.sqrt_mul_self (by norm_num [BASE_RADIUS])

/-- Witness for C8: the first satellite of the two-item layout
`mkPoints [ideaA, ideaB]` lies on the sphere. -/
theorem satellites_on_sphere_witness :
    (satellitePoint 2 0 ideaA).x ^ 2 + (satellitePoint 2 0 ideaA).y ^ 2 +
        (satellitePoint 2 0 ideaA).z ^ 2 = BASE_RADIUS ^ 2 ∧
      Real.sqrt ((satellitePoint 2 0 ideaA).x ^ 2 + (satellitePoint 2 0 ideaA).y ^ 2 +
        (satellitePoint 2 0 ideaA).z ^ 2) = BASE_RADIUS :=
  satellites_on_sphere [ideaA, ideaB] (by norm_num) (satellitePoint 2 0 ideaA)
    (by simp [mkPoints, satellites]) rfl

theorem renderList_pairwise (rotX rotY zoom w h : ℝ) (pts : List Point3D) :
    (renderList rotX rotY zoom w h pts).Pairwise
      (fun a b => a.zIndex ≤ b.zIndex) := by
  have htrans : ∀ a b c : ProjectedPoint,
      zIndexLeB a b → zIndexLeB b c → zIndexLeB a c := by
    intro a b c hab hbc
    simp only [zIndexLeB, decide_eq_true_eq] at hab hbc ⊢
    omega
  have htotal : ∀ a b : ProjectedPoint, zIndexLeB a b || zIndexLeB b a := by
    intro a b
    simp only [zIndexLeB, Bool.or_eq_true, decide_eq_true_eq]
    omega
  have h := List.sorted_mergeSort htrans htotal
    (projectedPoints rotX rotY zoom w h pts)
  exact h.imp (by intro a b hab; simpa [zIndexLeB] using hab)

theorem renderList_perm (rotX rotY zoom w h : ℝ) (pts : List Point3D) :
    (renderList rotX rotY zoom w h pts).Perm
      (projectedPoints rotX rotY zoom w h pts) :=
  List.mergeSort_perm _ _

/-- The projection of the central node at the origin has perspective scale
exactly `1` and computed `zIndex` exactly `1000`, for every view state. -/
theorem project_center_scale_one (rotX rotY zoom w h : ℝ) :
    (project rotX rotY zoom centerPoint w h).scale = 1 ∧
      (project rotX rotY zoom centerPoint w h).zIndex = 1000 := by
  have hs : (project rotX rotY zoom centerPoint w h).scale = 1 := by
    simp [project, centerPoint, FOCAL_LENGTH]
  refine ⟨hs, ?_⟩
  have : (project rotX rotY zoom centerPoint w h).zIndex =
      Int.floor ((project rotX rotY zoom centerPoint w h).scale * 1000) := rfl
  rw [this, hs]
  norm_num

theorem pairwise_le_getLast :
    ∀ {l : List ProjectedPoint} {q : ProjectedPoint},
      l.Pairwise (fun a b => a.zIndex ≤ b.zIndex) → l.getLast? = some q →
        ∀ x ∈ l, x.zIndex ≤ q.zIndex
  | [], _, _, hq => by simp at hq
  | [a], q, _, hq => by
      intro x hx
      simp at hq hx
      simp [hx, hq]
  | a :: b :: t, q, hp, hq => by
      intro x hx
      rw [List.getLast?_cons_cons] at hq
      have ih := pairwise_le_getLast hp.of_cons hq
      rcases List.mem_cons.mp hx with rfl | hx'
      · have hqmem : q ∈ b :: t := List.mem_of_getLast?_eq_some hq
        exact (List.pairwise_cons.mp hp).1 q hqmem
      · exact ih x hx'

/-- C2 (amended): every emitted render list is sorted ascending by the depth
key `zIndex = ⌊1000 · perspectiveScale⌋`; the center point is ordered by its
computed key just like every other point — that key is always exactly `1000`
(perspective scale `1`, since the center sits at the origin) — rather than
being forced topmost. -/
theorem renderList_sorted_and_center_key :
    (∀ rotX rotY zoom w h pts,
        (renderList rotX rotY zoom w h pts).Pairwise
          (fun a b => a.zIndex ≤ b.zIndex)) ∧
      ∀ rotX rotY zoom w h,
        (project rotX rotY zoom centerPoint w h).scale = 1 ∧
          (project rotX rotY zoom centerPoint w h).zIndex = 1000 :=
  ⟨renderList_pairwise, project_center_scale_one⟩

theorem project_second_satellite_zIndex :
    (project (Real.pi / 2) 0 1 (satellitePoint 2 1 ideaB) 800 600).zIndex = 1875 ∧
      (satellitePoint 2 1 ideaB).isCenter = false := by
  constructor
  · have hy : (1 : ℝ) - ((1 : ℕ) : ℝ) / (((2 : ℕ) : ℝ) - 1) * 2 = -1 := by norm_num
    simp only [project, satellitePoint, hy]
    norm_num [Real.cos_pi_div_two, Real.sin_pi_div_two, Real.sqrt_zero,
      FOCAL_LENGTH, BASE_RADIUS]
  · rfl

/-- C2 counterexample: in the concrete frame with `rotationX = π/2`,
`rotationY = 0`, `zoom = 1`, viewport `800 × 600` and two items, the last
(topmost) element of the sorted render list is a satellite, NOT the
center: the center's computed key is `1000` while the front satellite's
key is `1875`, and the inline `zIndex` style orders nodes by the computed
key alone. -/
theorem renderList_center_not_topmost :
    ((renderList (Real.pi / 2) 0 1 800 600 (mkPoints [ideaA, ideaB])).getLast?.map
        fun q => q.isCenter) = some false := by
  have hsorted := renderList_pairwise (Real.pi / 2) 0 1 800 600 (mkPoints [ideaA, ideaB])
  have hperm := renderList_perm (Real.pi / 2) 0 1 800 600 (mkPoints [ideaA, ideaB])
  have hproj : projectedPoints (Real.pi / 2) 0 1 800 600 (mkPoints [ideaA, ideaB]) =
      [mkProjected centerPoint
          (project (Real.pi / 2) 0 1 centerPoint 800 600),
        mkProjected (satellitePoint 2 0 ideaA)
          (project (Real.pi / 2) 0 1 (satellitePoint 2 0 ideaA) 800 600),
        mkProjected (satellitePoint 2 1 ideaB)
          (project (Real.pi / 2) 0 1 (satellitePoint 2 1 ideaB) 800 600)] := by
    simp [projectedPoints, mkPoints, satellites]
  have hbmem : mkProjected (satellitePoint 2 1 ideaB)
      (project (Real.pi / 2) 0 1 (satellitePoint 2 1 ideaB) 800 600) ∈
        renderList (Real.pi / 2) 0 1 800 600 (mkPoints [ideaA, ideaB]) := by
    rw [hperm.mem_iff, hproj]
    simp
  cases hq : (renderList (Real.pi / 2) 0 1 800 600 (mkPoints [ideaA, ideaB])).getLast? with
  | none =>
    rw [List.getLast?_eq_none_iff] at hq
    rw [hq] at hbmem
    simp at hbmem
  | some q =>
    simp only [Option.map_some', Option.some.injEq]
    rcases hqc : q.isCenter with - | -
    · rfl
    · exfalso
      have hle := pairwise_le_getLast hsorted hq _ hbmem
      have hqmem : q ∈ projectedPoints (Real.pi / 2) 0 1 800 600 (mkPoints [ideaA, ideaB]) :=
        hperm.mem_iff.mp (List.mem_of_getLast?_eq_some hq)
      rw [hproj] at hqmem
      have hqcenter : q = mkProjected centerPoint
          (project (Real.pi / 2) 0 1 centerPoint 800 600) := by
        rcases List.mem_cons.mp hqmem with rfl | hqmem'
        · rfl
        · rcases List.mem_cons.mp hqmem' with rfl | hqmem''
          · simp [mkProjected, satellitePoint] at hqc
          · rcases List.mem_cons.mp hqmem'' with rfl | habs
            · simp [mkProjected, satellitePoint] at hqc
            · simp at habs
      have hq1000 : q.zIndex = 1000 := by
        rw [hqcenter]
        exact (project_center_scale_one (Real.pi / 2) 0 1 800 600).2
      have hb1875 : (mkProjected (satellitePoint 2 1 ideaB)
          (project (Real.pi / 2) 0 1 (satellitePoint 2 1 ideaB) 800 600)).zIndex = 1875 :=
        project_second_satellite_zIndex.1
      rw [hb1875, hq1000] at hle
      omega

/-- C6: for every 3D point, view state and viewport, the source projector
agrees field-by-field with the pipeline spelled out by the spec:
zoom scaling, then the Y rotation, then the X rotation with
`(y', z'') = (y·cosθx − z'·sinθx, z'·cosθx + y·sinθx)`, then the
perspective divide, additionally returning `rawRotatedZ = z''`. -/
theorem project_refines_spec (rotationX rotationY zoomScale : ℝ) (p : Point3D)
    (width height : ℝ) :
    (project rotationX rotationY zoomScale p width height).x =
        (projectSpec rotationX rotationY zoomScale p width height).screenX ∧
      (project rotationX rotationY zoomScale p width height).y =
        (projectSpec rotationX rotationY zoomScale p width height).screenY ∧
      (project rotationX rotationY zoomScale p width height).scale =
        (projectSpec rotationX rotationY zoomScale p width height).perspectiveScale ∧
      (project rotationX rotationY zoomScale p width height).rawZ =
        (projectSpec rotationX rotationY zoomScale p width height).rawRotatedZ :=
  ⟨rfl, rfl, rfl, rfl⟩

theorem interaction_invariant_step (s : MindMapState) (e : Event)
    (hadm : admissible s e) (h : exactlyOneActive s ∨ noneActive s) :
    exactlyOneActive (sysStep e s).1 ∨ noneActive (sysStep e s).1 := by
  simp only [exactlyOneActive, noneActive, isAutoRotatingState, isDraggingState,
    isInspectingState] at h ⊢
  cases e with
  | mouseDown cx cy =>
    rcases hI : s.selectedIdea with - | idea
    · simp [sysStep, componentStep, handleMouseDown, hI]
    · simpa [sysStep, componentStep, handleMouseDown, hI] using h
  | mouseMove cx cy =>
    rcases hD : s.isDragging with - | -
    · simpa [sysStep, componentStep, handleMouseMove, hD] using h
    · simpa [sysStep, componentStep, handleMouseMove, hD] using h
  | mouseUp =>
    rcases hI : s.selectedIdea with - | idea
    · simp [sysStep, componentStep, handleMouseUp, hI]
    · rcases h with (⟨-, -, h3⟩ | ⟨-, -, h3⟩ | ⟨h1, -, -⟩) | ⟨-, -, h3⟩
      · exact absurd (by simp [hI]) h3
      · exact absurd (by simp [hI]) h3
      · refine Or.inl (Or.inr (Or.inr ⟨?_, ?_, ?_⟩)) <;>
          simp [sysStep, componentStep, handleMouseUp, hI, h1]
      · exact absurd (by simp [hI]) h3
  | wheel d =>
    simpa [sysStep, componentStep, handleWheel] using h
  | nodeClick p =>
    have hD : s.isDragging = false := hadm rfl
    rcases hC : p.isCenter with - | -
    · rcases hPI : p.idea with - | idea
      · simpa [sysStep, componentStep, handleNodeClick, hC, hPI] using h
      · simp [sysStep, componentStep, handleNodeClick, hC, hPI, hD]
    · simp [sysStep, componentStep, handleNodeClick, hC, hD]
  | backgroundClick =>
    have hD : s.isDragging = false := hadm rfl
    rcases hI : s.selectedIdea with - | idea
    · simpa [sysStep, componentStep, handleBackgroundClick, hI] using h
    · simp [sysStep, componentStep, handleBackgroundClick, hI, hD]
  | closeDetail =>
    have hD : s.isDragging = false := hadm rfl
    rcases hI : s.selectedIdea with - | idea
    · simpa [sysStep, componentStep, closeDetailClick, hI] using h
    · simp [sysStep, componentStep, closeDetailClick, hI, hD]
  | setAsCore =>
    rcases hI : s.selectedIdea with - | idea
    · simpa [sysStep, componentStep, setAsCoreClick, hI] using h
    · rcases hb : jsBlank idea.phrase with - | -
      · simp [sysStep, componentStep, setAsCoreClick, hI, hb, initState]
      · rcases h with (⟨-, -, h3⟩ | ⟨-, -, h3⟩ | ⟨h1, h2, -⟩) | ⟨-, -, h3⟩
        · exact absurd (by simp [hI]) h3
        · exact absurd (by simp [hI]) h3
        · refine Or.inr ⟨?_, ?_, ?_⟩ <;>
            simp [sysStep, componentStep, setAsCoreClick, hI, hb, h1, h2]
        · exact absurd (by simp [hI]) h3
  | tick =>
    rcases hG : (s.autoRotate && !s.isDragging && s.selectedIdea.isNone) with - | -
    · simpa [sysStep, componentStep, animateTick, hG] using h
    · simpa [sysStep, componentStep, animateTick, hG] using h

/-- C4 (amended): in every reachable state of the interaction controller
(reachable from a fresh mount by DOM-admissible event sequences of
pointer, wheel, click, set-as-core and tick events), AT MOST one of
`AutoRotating`, `Dragging`, `Inspecting` is active — the flags never
encode two of these states at once. It is not always exactly one: the
state reached by a "set as core" on a blank-phrase idea has none of the
three active (see the counterexample), because `performSearch`'s
blank-term guard skips the remount reset. -/
theorem reachable_at_most_one_active (s : MindMapState) (h : Reachable s) :
    exactlyOneActive s ∨ noneActive s := by
  induction h with
  | init =>
    left
    left
    refine ⟨rfl, ?_, ?_⟩ <;> simp [isDraggingState, isInspectingState, initState]
  | step s e hr hadm ih => exact interaction_invariant_step s e hadm ih

/-- Witness for C4 at the initial state. -/
theorem reachable_at_most_one_active_witness :
    exactlyOneActive initState ∨ noneActive initState :=
  reachable_at_most_one_active initState Reachable.init

/-- C4 counterexample: the admissible sequence "click the blank-phrase
idea's node, then set as core" leaves the real composed system — with
`performSearch`'s blank-term guard — in a reachable, still-mounted state
with NONE of the three interaction states active: `autoRotate = false`,
`isDragging = false`, `selectedIdea = none`. So "exactly one active" fails
for the program as built. -/
theorem reachable_none_active_after_blank_setAsCore :
    Reachable stalledState ∧
      stalledState.autoRotate = false ∧ stalledState.isDragging = false ∧
      stalledState.selectedIdea = none := by
  refine ⟨?_, rfl, rfl, rfl⟩
  have h1 : (sysStep (.nodeClick blankNodePoint) initState).1 = inspectingBlank := by
    simp [sysStep, componentStep, handleNodeClick, blankNodePoint, satellitePoint,
      inspectingBlank, initState]
  have hb : jsBlank ideaBlank.phrase = true := by decide
  have h2 : (sysStep .setAsCore inspectingBlank).1 = stalledState := by
    simp [sysStep, componentStep, setAsCoreClick, inspectingBlank, hb,
      stalledState, initState]
  have r1 : Reachable (sysStep (.nodeClick blankNodePoint) initState).1 :=
    Reachable.step initState (.nodeClick blankNodePoint) Reachable.init (fun _ => rfl)
  rw [h1] at r1
  have r2 : Reachable (sysStep .setAsCore inspectingBlank).1 :=
    Reachable.step inspectingBlank .setAsCore r1 (fun _ => rfl)
  rw [h2] at r2
  exact r2

/-- C1 (amended): for every "set as core" action performed while
inspecting `idea`, the handler invokes `onSetAsCore` exactly once, with
exactly that idea's phrase, and clears the selection. When the phrase is
non-blank, the recenter unmounts the component and remounts it in
`initState`, so the composed system is back in `AutoRotating`. When the
phrase is blank, `performSearch` returns at its guard (src/App.tsx
line 17): the component stays mounted, `autoRotate` keeps its old value,
and the state does not become `AutoRotating`. -/
theorem setAsCore_recenter_once_conditional_reset (s : MindMapState) (idea : Idea)
    (h : s.selectedIdea = some idea) :
    (componentStep .setAsCore s).2 = [idea.phrase] ∧
      (componentStep .setAsCore s).1.selectedIdea = none ∧
      (jsBlank idea.phrase = false →
        (sysStep .setAsCore s).1 = initState ∧
          isAutoRotatingState (sysStep .setAsCore s).1 ∧
          ¬ isDraggingState (sysStep .setAsCore s).1 ∧
          ¬ isInspectingState (sysStep .setAsCore s).1) ∧
      (jsBlank idea.phrase = true →
        (sysStep .setAsCore s).1 = { s with selectedIdea := none } ∧
          (sysStep .setAsCore s).1.autoRotate = s.autoRotate) := by
  refine ⟨by simp [componentStep, setAsCoreClick, h],
    by simp [componentStep, setAsCoreClick, h], ?_, ?_⟩
  · intro hb
    simp [componentStep, setAsCoreClick, sysStep, h, hb, initState,
      isAutoRotatingState, isDraggingState, isInspectingState]
  · intro hb
    simp [componentStep, setAsCoreClick, sysStep, h, hb]

/-- Witness for C1 while inspecting `ideaA`, whose phrase is non-blank. -/
theorem setAsCore_recenter_once_conditional_reset_witness :
    (componentStep .setAsCore inspectingA).2 = [ideaA.phrase] ∧
      (componentStep .setAsCore inspectingA).1.selectedIdea = none ∧
      (sysStep .setAsCore inspectingA).1 = initState := by
  obtain ⟨h1, h2, h3, -⟩ :=
    setAsCore_recenter_once_conditional_reset inspectingA ideaA rfl
  exact ⟨h1, h2, (h3 (by decide)).1⟩

/-- C1 counterexample: inspecting the blank-phrase idea, the "set as core"
action still invokes the recenter callback exactly once with that (blank)
phrase and clears the selection, but the guarded `performSearch` performs
no reset: the component keeps `autoRotate = false`, so the interaction
state does not become `AutoRotating`. -/
theorem setAsCore_blank_phrase_no_reset :
    (sysStep .setAsCore inspectingBlank).2 = [ideaBlank.phrase] ∧
      (sysStep .setAsCore inspectingBlank).1.autoRotate = false ∧
      (sysStep .setAsCore inspectingBlank).1.isDragging = false ∧
      (sysStep .setAsCore inspectingBlank).1.selectedIdea = none := by
  have hb : jsBlank ideaBlank.phrase = true := by decide
  refine ⟨?_, ?_, ?_, ?_⟩ <;>
    simp [sysStep, componentStep, setAsCoreClick, inspectingBlank, hb, initState]

/-- C5: a wheel event always sets `zoomScale` to
`clamp(zoom − deltaY·0.001, 0.5, 2.5)`; hence after any finite sequence of
wheel events from a zoom in `[0.5, 2.5]` the zoom stays in `[0.5, 2.5]`,
and a single wheel `deltaY = −2000` from zoom `1` yields `2.5`, not `3`. -/
theorem wheel_zoom_clamped :
    (∀ (s : MindMapState) (ds : List ℝ),
        0.5 ≤ s.zoomScale → s.zoomScale ≤ 2.5 →
          0.5 ≤ (wheelFold s ds).zoomScale ∧ (wheelFold s ds).zoomScale ≤ 2.5) ∧
      (∀ (s : MindMapState) (d : ℝ),
        (handleWheel s d).zoomScale =
          min (max (s.zoomScale - d * 0.001) 0.5) 2.5) ∧
      ∀ s : MindMapState, s.zoomScale = 1 →
        (handleWheel s (-2000)).zoomScale = 2.5 := by
  have hstep : ∀ (s : MindMapState) (d : ℝ),
      0.5 ≤ (handleWheel s d).zoomScale ∧ (handleWheel s d).zoomScale ≤ 2.5 := by
    intro s d
    constructor
    · exact le_min (le_max_right _ _) (by norm_num)
    · exact min_le_right _ _
  refine ⟨?_, fun s d => rfl, ?_⟩
  · intro s ds
    induction ds generalizing s with
    | nil => intro h1 h2; exact ⟨h1, h2⟩
    | cons d t ih =>
      intro h1 h2
      exact ih (handleWheel s d) (hstep s d).1 (hstep s d).2
  · intro s hs
    show min (max (s.zoomScale - (-2000) * 0.001) 0.5) 2.5 = 2.5
    rw [hs]
    rw [show (1 : ℝ) - (-2000) * 0.001 = 3 by norm_num]
    rw [max_eq_left (by norm_num), min_eq_right (by norm_num)]

/-- Witness for C5: two extreme wheel events from the initial state, and
the concrete `deltaY = −2000` scenario. -/
theorem wheel_zoom_clamped_witness :
    (0.5 ≤ (wheelFold initState [-2000, 500]).zoomScale ∧
        (wheelFold initState [-2000, 500]).zoomScale ≤ 2.5) ∧
      (handleWheel initState (-2000)).zoomScale = 2.5 :=
  ⟨wheel_zoom_clamped.1 initState [-2000, 500] (by norm_num [initState])
      (by norm_num [initState]),
    wheel_zoom_clamped.2.2 initState rfl⟩

/-- C9: while the flags encode `AutoRotating`, `k` animation ticks add
exactly `0.003·k` to `rotationY` (so equality also holds mod `2π`) and
leave `rotationX` and `zoomScale` unchanged; when the state is not
`AutoRotating`, a tick changes nothing at all. -/
theorem tick_rotation_advance :
    (∀ (s : MindMapState) (k : ℕ),
        s.autoRotate = true → s.isDragging = false → s.selectedIdea = none →
          (animateTick^[k] s).rotationY = s.rotationY + 0.003 * k ∧
            (animateTick^[k] s).rotationX = s.rotationX ∧
            (animateTick^[k] s).zoomScale = s.zoomScale) ∧
      ∀ s : MindMapState,
        ¬(s.autoRotate = true ∧ s.isDragging = false ∧ s.selectedIdea = none) →
          animateTick s = s := by
  constructor
  · have key : ∀ (k : ℕ) (s : MindMapState),
        s.autoRotate = true → s.isDragging = false → s.selectedIdea = none →
          animateTick^[k] s = { s with rotationY := s.rotationY + 0.003 * k } := by
      intro k
      induction k with
      | zero => intro s _ _ _; simp
      | succ k ih =>
        intro s hA hD hI
        rw [Function.iterate_succ_apply, show animateTick s =
          { s with rotationY := s.rotationY + 0.003 } by
            simp [animateTick, hA, hD, hI]]
        rw [ih { s with rotationY := s.rotationY + 0.003 } (by simpa using hA)
          (by simpa using hD) (by simpa using hI)]
        simp only [MindMapState.mk.injEq, and_true, true_and]
        push_cast
        ring
    intro s k hA hD hI
    rw [key k s hA hD hI]
    exact ⟨rfl, rfl, rfl⟩
  · intro s hns
    have hg : (s.autoRotate && !s.isDragging && s.selectedIdea.isNone) = false := by
      rcases hA : s.autoRotate with - | - <;>
        rcases hD : s.isDragging with - | - <;>
          rcases hI : s.selectedIdea with - | i <;>
            simp_all
    simp [animateTick, hg]

/-- Witness for C9: three ticks from the initial state. -/
theorem tick_rotation_advance_witness :
    (animateTick^[3] initState).rotationY = initState.rotationY + 0.003 * 3 ∧
      (animateTick^[3] initState).rotationX = initState.rotationX ∧
      (animateTick^[3] initState).zoomScale = initState.zoomScale :=
  tick_rotation_advance.1 initState 3 rfl rfl rfl

/-- C10: in every interaction state — `Inspecting` included — a wheel event
sets `zoomScale` to `clamp(zoom − deltaY·0.001, 0.5, 2.5)` and leaves the
rotation angles, both interaction flags, the selection, and the recenter
output untouched. -/
theorem wheel_frame_effect (s : MindMapState) (d : ℝ) :
    (componentStep (.wheel d) s).1.zoomScale =
        min (max (s.zoomScale - d * 0.001) 0.5) 2.5 ∧
      (componentStep (.wheel d) s).1.rotationX = s.rotationX ∧
      (componentStep (.wheel d) s).1.rotationY = s.rotationY ∧
      (componentStep (.wheel d) s).1.isDragging = s.isDragging ∧
      (componentStep (.wheel d) s).1.autoRotate = s.autoRotate ∧
      (componentStep (.wheel d) s).1.selectedIdea = s.selectedIdea ∧
      (componentStep (.wheel d) s).2 = [] :=
  ⟨rfl, rfl, rfl, rfl, rfl, rfl, rfl⟩

/-- On the generic path (`count ≥ 2`, any `i`) the JavaScript evaluation is
the ordinary finite value `1 - (i/(count-1))·2` — the `JSNum` detour agrees
with the `ℝ`-embedding wherever no special value arises. -/
theorem jsYNorm_eq_fin_of_two_le {count : ℕ} (hc : 2 ≤ count) (i : ℕ) :
    jsYNorm count i = JSNum.fin (1 - ((i : ℚ) / ((count : ℚ) - 1)) * 2) := by
  have hne : ((count : ℚ) - 1) ≠ 0 := by
    have : (2 : ℚ) ≤ (count : ℚ) := by exact_mod_cast hc
    intro h
    rw [sub_eq_zero] at h
    rw [h] at this
    norm_num at this
  simp [jsYNorm, JSNum.sub, JSNum.mul, JSNum.div, hne]

/-- C3 evidence: for a single-item list (`N = 1`, loop index `i = 0`) the
layout loop does evaluate `i / (count - 1)` — in JavaScript this is
`0 / 0 = NaN` — so the computed `yNorm` is `JSNum.nan`, which is a
constructor distinct from the pole value `JSNum.fin 1` the spec's
special-case policy prescribes. There is no `N ≤ 1` special case in the
code (lines 43-49). -/
theorem layout_single_item_yNorm_isNaN : jsYNorm 1 0 = JSNum.nan := by
  norm_num [jsYNorm, JSNum.sub, JSNum.mul, JSNum.div]
